import Mathlib

/-!
Verification development for the SimplePhn SMS dispatch service.

The Python source is shallowly embedded: strings are lists of Unicode code
points (`List Nat`), byte strings are `List Nat`, wall-clock times and float
scores are rationals, and the effectful layers (serial dialogue, message bus,
GSM library calls) are parameterised by explicit environments recording the
outcome of each external call.  Each definition mirrors one Python function,
named after it.
-/

namespace SimplePhn

/-! ## UCS-2 / segmentation codec (src/src/sms_service/sms_sender.py) -/

/-- UTF-16-BE code units of one Unicode code point, as in Python's
`s.encode("utf-16-be")`: one unit below U+10000, a surrogate pair above. -/
def utf16Units (cp : Nat) : List Nat :=
  if cp < 65536 then [cp]
  else
    let v := cp - 65536
    [55296 + v / 1024, 56320 + v % 1024]

/-- The sequence of UTF-16 code units of a body (a list of code points). -/
def ucs2Units (content : List Nat) : List Nat :=
  content.flatMap utf16Units

/-- `to_ucs2_hex`, at byte granularity: each 16-bit unit becomes two bytes
(the hexadecimal rendering of the source is one byte per two hex digits). -/
def to_ucs2_bytes (content : List Nat) : List Nat :=
  (ucs2Units content).flatMap (fun u => [u / 256, u % 256])

/-- The length of a body measured in UCS-2 (UTF-16) code units.  This is the
measure named by the specification; the source instead uses `len(content)`,
the number of code points. -/
def specUcs2CodeUnitLen (content : List Nat) : Nat :=
  (ucs2Units content).length

/-- `MAX_SEGMENT_CHARS` in `_encode_long_sms_ucs2`. -/
def MAX_SEGMENT_CHARS : Nat := 67

/-- `math.ceil(total_chars / MAX_SEGMENT_CHARS)` where `total_chars` is
`len(content)` (code points). -/
def numSegments (content : List Nat) : Nat :=
  (content.length + 66) / 67

/-- The six UDH bytes `05 00 03 RR TT SS` built in `_encode_long_sms_ucs2`
(`ref_byte = reference_num & 0xFF` and so on). -/
def udhBytes (ref total current : Nat) : List Nat :=
  [5, 0, 3, ref % 256, total % 256, current % 256]

/-- `content[start:end]` for the `segment_index`-th chunk of the loop. -/
def segmentText (content : List Nat) (i : Nat) : List Nat :=
  (content.drop (67 * i)).take 67

/-- `_encode_long_sms_ucs2`: one `(data_length, udh_hex + content_hex)` pair
per segment; `data_length` is the byte length of the hex string. -/
def encodeLongSmsUcs2 (content : List Nat) (ref : Nat) : List (Nat × List Nat) :=
  (List.range (numSegments content)).map fun i =>
    let full := udhBytes ref (numSegments content) (i + 1) ++ to_ucs2_bytes (segmentText content i)
    (full.length, full)

/-- One planned transmission of `send_sms`: either the single short segment
(no UDH, text sent directly) or one UDH-carrying segment of the long path. -/
inductive PlannedSegment where
  | single (text : List Nat)
  | udhSeg (dataLength : Nat) (bytes : List Nat)
  deriving DecidableEq, Repr

/-- The segment plan realised by `send_sms` / `send_long_sms`: bodies of at
most 70 code points go out as one segment without UDH
(`_send_encoded_sms`); longer bodies are split by `_encode_long_sms_ucs2`. -/
def segmentPlan (content : List Nat) (ref : Nat) : List PlannedSegment :=
  if content.length ≤ 70 then [.single content]
  else (encodeLongSmsUcs2 content ref).map fun s => .udhSeg s.1 s.2

/-! ### Facts about the segmentation -/

theorem numSegments_nil : numSegments [] = 0 := rfl

theorem numSegments_of_le (l : List Nat) (h0 : 0 < l.length) (h67 : l.length ≤ 67) :
    numSegments l = 1 := by
  unfold numSegments
  exact Nat.div_eq_of_lt_le (by omega) (by omega)

theorem numSegments_of_gt (l : List Nat) (h : 67 < l.length) :
    numSegments l = numSegments (l.drop 67) + 1 := by
  unfold numSegments
  rw [List.length_drop]
  have heq : l.length + 66 = (l.length - 67 + 66) + 67 := by omega
  rw [heq, Nat.add_div_right _ (by omega)]

theorem segmentText_succ (l : List Nat) (i : Nat) :
    segmentText l (i + 1) = segmentText (l.drop 67) i := by
  unfold segmentText
  have h : 67 * (i + 1) = 67 + 67 * i := by ring
  rw [List.drop_drop, h]

/-- Reassembling the chunks of `_encode_long_sms_ucs2` in order recovers the
original code-point sequence (fuel-indexed induction on the length). -/
theorem chunks_join_aux : ∀ (fuel : Nat) (l : List Nat), l.length ≤ fuel →
    ((List.range (numSegments l)).map (segmentText l)).flatten = l := by
  intro fuel
  induction fuel with
  | zero =>
    intro l hl
    have : l = [] := List.length_eq_zero.mp (by omega)
    subst this
    rfl
  | succ n ih =>
    intro l hl
    rcases Nat.eq_zero_or_pos l.length with h0 | h0
    · have : l = [] := List.length_eq_zero.mp h0
      subst this
      rfl
    · rcases le_or_lt l.length 67 with h67 | h67
      · rw [numSegments_of_le l h0 h67]
        simp [List.range_succ, segmentText, List.take_of_length_le h67]
      · rw [numSegments_of_gt l h67, List.range_succ_eq_map]
        have hdrop : (l.drop 67).length ≤ n := by
          rw [List.length_drop]; omega
        have htail := ih (l.drop 67) hdrop
        simp only [List.map_cons, List.map_map, List.flatten_cons]
        have hcomp : (segmentText l ∘ Nat.succ) = segmentText (l.drop 67) := by
          funext i
          exact segmentText_succ l i
        rw [hcomp, htail]
        show (l.drop 0).take 67 ++ l.drop 67 = l
        rw [List.drop_zero, List.take_append_drop]

theorem chunks_join (l : List Nat) :
    ((List.range (numSegments l)).map (segmentText l)).flatten = l :=
  chunks_join_aux l.length l le_rfl

theorem segmentText_length_le (l : List Nat) (i : Nat) :
    (segmentText l i).length ≤ 67 := by
  unfold segmentText
  exact List.length_take_le 67 (l.drop (67 * i))

/-- C1 (amended): the plan of `send_sms` has one UDH-free segment when the
body has at most 70 code points (Python `len`); otherwise it has
`⌈N/67⌉` segments (`N` the code-point count), whose texts are the
consecutive 67-code-point chunks of the body (so each is at most 67 code
points and together they reassemble to the body), and segment `i`
(1-based) is prefixed by the 6-byte UDH `05 00 03 RR TT SS` with
`RR = ref % 256` shared by all segments, `TT = ⌈N/67⌉ % 256` and
`SS = i % 256`. -/
theorem segment_plan_spec (content : List Nat) (ref : Nat) :
    (content.length ≤ 70 → segmentPlan content ref = [.single content]) ∧
    (70 < content.length →
      (segmentPlan content ref).length = numSegments content ∧
      ((List.range (numSegments content)).map (segmentText content)).flatten = content ∧
      (∀ i, (segmentText content i).length ≤ 67) ∧
      (∀ i (h : i < (segmentPlan content ref).length),
        (segmentPlan content ref).get ⟨i, h⟩ =
          .udhSeg (6 + (to_ucs2_bytes (segmentText content i)).length)
            ([5, 0, 3, ref % 256, numSegments content % 256, (i + 1) % 256] ++
              to_ucs2_bytes (segmentText content i)))) := by
  constructor
  · intro h
    simp [segmentPlan, h]
  · intro h
    have hif : ¬ content.length ≤ 70 := by omega
    refine ⟨?_, chunks_join content, segmentText_length_le content, ?_⟩
    · simp [segmentPlan, hif, encodeLongSmsUcs2]
    · intro i hi
      have hplan : segmentPlan content ref =
          (encodeLongSmsUcs2 content ref).map fun s => PlannedSegment.udhSeg s.1 s.2 := by
        simp [segmentPlan, hif]
      simp only [List.get_eq_getElem, hplan, List.getElem_map]
      simp only [encodeLongSmsUcs2, List.getElem_map, List.getElem_range]
      congr 1
      simp [udhBytes]
      omega

/-- Witness for `segment_plan_spec`: a 70-code-point body gives one segment
without UDH and a 71-code-point body gives two segments. -/
theorem segment_plan_spec_witness :
    segmentPlan (List.replicate 70 65) 42 = [.single (List.replicate 70 65)] ∧
    (segmentPlan (List.replicate 71 65) 42).length = 2 := by
  constructor
  · exact (segment_plan_spec (List.replicate 70 65) 42).1 (by decide)
  · have h := ((segment_plan_spec (List.replicate 71 65) 42).2 (by decide)).1
    rw [h]; decide

/-- C1 as stated is false: a body of 40 astral code points (here U+1F600)
is 80 UCS-2 code units long, so the claim demands `⌈80/67⌉ = 2` UDH-carrying
segments, but the code measures `len(content) = 40 ≤ 70` and emits a single
segment without UDH. -/
theorem segment_plan_cex :
    70 < specUcs2CodeUnitLen (List.replicate 40 128512) ∧
    segmentPlan (List.replicate 40 128512) 42 =
      [.single (List.replicate 40 128512)] := by
  constructor
  · decide
  · rfl

/-! ## Modem response parsing (`SMSSender._parse_response`) -/

/-- The whitespace characters recognised by Python's `str.strip()` and the
regex class `\s` (the dialogue only ever produces ASCII). -/
def isPyWs (c : Char) : Bool :=
  c == ' ' || c == '\t' || c == '\n' || c == '\r' || c == '\x0b' || c == '\x0c'

/-- Python `s.strip()` over the character list. -/
def pyStrip (l : List Char) : List Char :=
  ((l.dropWhile isPyWs).reverse.dropWhile isPyWs).reverse

def cmgsPat : List Char := "+CMGS:".toList

def okPat : List Char := "OK".toList

def errorPat : List Char := "ERROR".toList

def cmsErrorPat : List Char := "+CMS ERROR:".toList

/-- Python's substring test `pat in s`. -/
def containsSub (pat s : List Char) : Bool := decide (pat <:+: s)

/-- After skipping `\s*`, is the next character a digit?  (The regex
`\+CMS ERROR:\s*(\d+)` requires at least one digit.) -/
def digitAfterWs (l : List Char) : Bool :=
  match (l.dropWhile isPyWs).head? with
  | some c => c.isDigit
  | none => false

/-- Does `\+CMS ERROR:\s*\d` match at the head of `l`? -/
def cmsCodeAt (l : List Char) : Bool :=
  cmsErrorPat.isPrefixOf l && digitAfterWs (l.drop cmsErrorPat.length)

/-- `re.search(r'\+CMS ERROR:\s*(\d+)', response)` succeeds somewhere in the
string (the captured number itself is not needed by any claim). -/
def cmsCodeSearch : List Char → Bool
  | [] => false
  | c :: rest => cmsCodeAt (c :: rest) || cmsCodeSearch rest

/-- Which branch of `_parse_response` produced the result (mirrors the
distinct `status_message`/`data` values of the source). -/
inductive RespClass where
  | cmgsSuccess | okSuccess | cmsFail | genericFail | unknownSuccess | timeoutFail
  deriving DecidableEq, Repr

/-- The fields of `SMSResult` that `_parse_response` decides. -/
structure ParsedSMSResult where
  success : Bool
  status_code : Nat
  tag : RespClass
  deriving DecidableEq, Repr

/-- `SMSSender._parse_response`, branch for branch. -/
def parseResponse (response : List Char) : ParsedSMSResult :=
  if containsSub cmgsPat response then ⟨true, 200, .cmgsSuccess⟩
  else if containsSub okPat response then ⟨true, 200, .okSuccess⟩
  else if containsSub errorPat response || containsSub cmsErrorPat response then
    if cmsCodeSearch response then ⟨false, 500, .cmsFail⟩
    else ⟨false, 500, .genericFail⟩
  else if response ≠ [] ∧ pyStrip response ≠ [] then ⟨true, 200, .unknownSuccess⟩
  else ⟨false, 500, .timeoutFail⟩

theorem all_ws_of_dropWhile (l : List Char) (h : ∀ x ∈ l.dropWhile isPyWs, isPyWs x) :
    ∀ c ∈ l, isPyWs c := by
  intro c hc
  rw [← List.takeWhile_append_dropWhile isPyWs l] at hc
  rcases List.mem_append.mp hc with h1 | h2
  · exact List.mem_takeWhile_imp h1
  · exact h c h2

theorem pyStrip_eq_nil_iff (l : List Char) :
    pyStrip l = [] ↔ ∀ c ∈ l, isPyWs c := by
  unfold pyStrip
  rw [List.reverse_eq_nil_iff, List.dropWhile_eq_nil_iff]
  constructor
  · intro h
    apply all_ws_of_dropWhile
    intro x hx
    exact h x (List.mem_reverse.mpr hx)
  · intro h x hx
    have hx2 : x ∈ l.dropWhile isPyWs := List.mem_reverse.mp hx
    exact h x ((List.dropWhile_sublist isPyWs).subset hx2)

theorem containsSub_eq_false_of_all_ws (pat r : List Char) (c : Char) (hc : c ∈ pat)
    (hw : isPyWs c = false) (hall : ∀ x ∈ r, isPyWs x) : containsSub pat r = false := by
  cases hb : containsSub pat r with
  | false => rfl
  | true =>
    exfalso
    have hinf : pat <:+: r := of_decide_eq_true hb
    have hcr : c ∈ r := hinf.subset hc
    rw [hall c hcr] at hw
    simp at hw

/-- C9: a response containing none of `+CMGS:`, `OK`, `ERROR`, `+CMS ERROR:`
that is non-empty after stripping whitespace is classified as a success with
status code 200, and the timeout classification is produced exactly for the
responses that are empty or whitespace-only. -/
theorem parse_response_spec (r : List Char) :
    (containsSub cmgsPat r = false → containsSub okPat r = false →
     containsSub errorPat r = false → containsSub cmsErrorPat r = false →
     pyStrip r ≠ [] →
     (parseResponse r).success = true ∧ (parseResponse r).status_code = 200) ∧
    ((parseResponse r).tag = .timeoutFail ↔ pyStrip r = []) := by
  constructor
  · intro h1 h2 h3 h4 h5
    have hr : r ≠ [] := by
      intro h
      subst h
      exact h5 rfl
    unfold parseResponse
    simp [h1, h2, h3, h4, hr, h5]
  · constructor
    · intro htag
      by_contra hne
      have hr : r ≠ [] := by
        intro h
        subst h
        exact hne rfl
      unfold parseResponse at htag
      split_ifs at htag
      all_goals simp_all
    · intro hnil
      have hall := (pyStrip_eq_nil_iff r).mp hnil
      have c1 := containsSub_eq_false_of_all_ws cmgsPat r '+' (by decide) (by decide) hall
      have c2 := containsSub_eq_false_of_all_ws okPat r 'O' (by decide) (by decide) hall
      have c3 := containsSub_eq_false_of_all_ws errorPat r 'E' (by decide) (by decide) hall
      have c4 := containsSub_eq_false_of_all_ws cmsErrorPat r '+' (by decide) (by decide) hall
      unfold parseResponse
      simp [c1, c2, c3, c4, hnil]

/-- Witness for `parse_response_spec`: the unclassified response
`"garbage"` is reported as a success with code 200, while a whitespace-only
response is classified as a timeout. -/
theorem parse_response_spec_witness :
    ((parseResponse ("garbage".toList)).success = true ∧
      (parseResponse ("garbage".toList)).status_code = 200) ∧
    (parseResponse ("  ".toList)).tag = .timeoutFail := by
  constructor
  · exact (parse_response_spec ("garbage".toList)).1 (by decide) (by decide)
      (by decide) (by decide) (by decide)
  · exact ((parse_response_spec ("  ".toList)).2).mpr (by decide)

/-! ## Consumer pipeline (`PulsarService._process_message`, src/common/pulsar.py) -/

/-- A decoded JSON object, as the association list of its fields (the fields
the pipeline itself writes are string-valued). -/
abbrev Payload := List (String × String)

/-- Python dict assignment `payload[k] = v`: replace the value under an
existing key in place, otherwise append the binding. -/
def setKey (p : Payload) (k v : String) : Payload :=
  if p.any (fun kv => kv.1 == k) then
    p.map (fun kv => if kv.1 == k then (k, v) else kv)
  else p ++ [(k, v)]

/-- What the `message_handler` coroutine passed to `start` does. -/
inductive HandlerOutcome where
  | returns (b : Bool)
  | raises

/-- One received bus message: identifier, raw payload bytes, redelivery
count. -/
structure BusMsg where
  msgId : String
  data : List Nat
  redeliveryCount : Nat

/-- The environment of one `_process_message` call: the outcome of each
external call it can make.  `decoded = none` means `json.loads` raises on
this payload; `ackRaises` / `nackRaises` say whether the consumer's
acknowledge / negative-acknowledge calls raise. -/
structure PipeEnv where
  decoded : Option Payload
  handler : Payload → HandlerOutcome
  ackRaises : Bool
  nackRaises : Bool

/-- The externally observable calls `_process_message` makes, in order. -/
inductive PipeEvent where
  | decodeAttempt
  | handlerCall (p : Payload)
  | ackCall
  | nackCall
  deriving DecidableEq, Repr

/-- `await self._negative_ack(msg)` inside the `try` body: if it raises, the
`except` clause negative-acks once more (a failure of that second call only
propagates). -/
def tryNack (env : PipeEnv) : List PipeEvent :=
  if env.nackRaises then [.nackCall, .nackCall] else [.nackCall]

/-- `await self._ack(msg)` inside the `try` body: if it raises, the `except`
clause negative-acks. -/
def tryAck (env : PipeEnv) : List PipeEvent :=
  if env.ackRaises then [.ackCall, .nackCall] else [.ackCall]

/-- The tail of `_process_message` once a payload object exists: invoke the
handler, then ack on `True`, negative-ack on `False`, and negative-ack from
the `except` clause if the handler raises. -/
def handleDecoded (env : PipeEnv) (p : Payload) : List PipeEvent :=
  .handlerCall p ::
    (match env.handler p with
     | .raises => [.nackCall]
     | .returns true => tryAck env
     | .returns false => tryNack env)

/-- `PulsarService._process_message`, as the sequence of decode / handler /
ack / nack calls it performs.  `json.loads` runs only when the raw payload
is non-empty (`json.loads(...) if msg.data() else {}`); the payload object
is then augmented with the `_service` and `_msg_id` fields. -/
def processMessage (maxRedelivery : Nat) (serviceName : String) (msg : BusMsg)
    (env : PipeEnv) : List PipeEvent :=
  if maxRedelivery ≤ msg.redeliveryCount then tryNack env
  else if msg.data = [] then
    handleDecoded env (setKey (setKey [] ("_service") serviceName) ("_msg_id") msg.msgId)
  else
    match env.decoded with
    | none => .decodeAttempt :: tryNack env
    | some payload =>
        .decodeAttempt ::
          handleDecoded env (setKey (setKey payload ("_service") serviceName) ("_msg_id") msg.msgId)

def isAckNack : PipeEvent → Bool
  | .ackCall => true
  | .nackCall => true
  | _ => false

/-- How many acknowledgement calls (positive or negative) a trace holds. -/
def ackNackCount (tr : List PipeEvent) : Nat := tr.countP isAckNack

theorem ackNackCount_handleDecoded (env : PipeEnv) (p : Payload)
    (hack : env.ackRaises = false) (hnack : env.nackRaises = false) :
    ackNackCount (handleDecoded env p) = 1 := by
  unfold handleDecoded tryAck tryNack
  cases hh : env.handler p with
  | raises => simp [ackNackCount, isAckNack]
  | returns b => cases b <;> simp [hack, hnack, ackNackCount, isAckNack]

/-- C2 (amended): on every control path of `_process_message` — redelivery
cap, decode failure, handler success, handler failure, handler exception —
exactly one of acknowledge / negative-acknowledge is invoked, provided the
acknowledgement calls themselves do not raise; when an ack or an in-`try`
nack raises, the `except` clause issues an additional negative-ack. -/
theorem process_message_ack_nack_once (maxR : Nat) (svc : String) (msg : BusMsg)
    (env : PipeEnv) (hack : env.ackRaises = false) (hnack : env.nackRaises = false) :
    ackNackCount (processMessage maxR svc msg env) = 1 := by
  unfold processMessage
  by_cases h1 : maxR ≤ msg.redeliveryCount
  · simp [h1, tryNack, hnack, ackNackCount, isAckNack]
  · by_cases h2 : msg.data = []
    · simp [h1, h2, ackNackCount_handleDecoded env _ hack hnack]
    · cases hd : env.decoded with
      | none => simp [h1, h2, hd, tryNack, hnack, ackNackCount, isAckNack]
      | some payload =>
          simp [h1, h2, hd, ackNackCount, List.countP_cons, isAckNack]
          have := ackNackCount_handleDecoded env
            (setKey (setKey payload ("_service") svc) ("_msg_id") msg.msgId) hack hnack
          simpa [ackNackCount] using this

/-- Witness for `process_message_ack_nack_once`. -/
theorem process_message_ack_nack_once_witness :
    ackNackCount (processMessage 3 ("sms")
      ⟨"mid-0", [123, 125], 0⟩ ⟨some [], fun _ => .returns true, false, false⟩) = 1 :=
  process_message_ack_nack_once 3 ("sms") ⟨"mid-0", [123, 125], 0⟩
    ⟨some [], fun _ => .returns true, false, false⟩ rfl rfl

/-- C2 as stated is false: when the handler succeeds but the acknowledge
call itself raises, the `except` clause additionally negative-acks, so two
acknowledgement calls are made for one message. -/
theorem process_message_cex :
    processMessage 3 ("sms") ⟨"mid-1", [123, 125], 0⟩
        ⟨some [], fun _ => .returns true, true, false⟩ =
      [.decodeAttempt, .handlerCall [("_service", "sms"), ("_msg_id", "mid-1")],
        .ackCall, .nackCall] ∧
    ackNackCount (processMessage 3 ("sms") ⟨"mid-1", [123, 125], 0⟩
        ⟨some [], fun _ => .returns true, true, false⟩) = 2 := by
  constructor
  · rfl
  · rfl

/-- C3: a message whose redelivery count has reached the configured
threshold is negative-acked with no decode attempt, no handler invocation
(hence no modem-pool lease and no send attempt), and no positive ack. -/
theorem process_message_redelivery_cap (maxR : Nat) (svc : String) (msg : BusMsg)
    (env : PipeEnv) (h : maxR ≤ msg.redeliveryCount) :
    PipeEvent.nackCall ∈ processMessage maxR svc msg env ∧
    PipeEvent.decodeAttempt ∉ processMessage maxR svc msg env ∧
    (∀ p, PipeEvent.handlerCall p ∉ processMessage maxR svc msg env) ∧
    PipeEvent.ackCall ∉ processMessage maxR svc msg env := by
  unfold processMessage tryNack
  by_cases hn : env.nackRaises <;> simp [h, hn]

/-- Witness for `process_message_redelivery_cap`: default threshold 3,
message redelivered 3 times. -/
theorem process_message_redelivery_cap_witness :
    PipeEvent.nackCall ∈ processMessage 3 ("sms") ⟨"mid-2", [123, 125], 3⟩
        ⟨some [], fun _ => .returns true, false, false⟩ ∧
    PipeEvent.decodeAttempt ∉ processMessage 3 ("sms") ⟨"mid-2", [123, 125], 3⟩
        ⟨some [], fun _ => .returns true, false, false⟩ ∧
    (∀ p, PipeEvent.handlerCall p ∉ processMessage 3 ("sms") ⟨"mid-2", [123, 125], 3⟩
        ⟨some [], fun _ => .returns true, false, false⟩) ∧
    PipeEvent.ackCall ∉ processMessage 3 ("sms") ⟨"mid-2", [123, 125], 3⟩
        ⟨some [], fun _ => .returns true, false, false⟩ :=
  process_message_redelivery_cap 3 ("sms") ⟨"mid-2", [123, 125], 3⟩
    ⟨some [], fun _ => .returns true, false, false⟩ (by decide)

theorem decodeAttempt_not_mem_handleDecoded (env : PipeEnv) (p : Payload) :
    PipeEvent.decodeAttempt ∉ handleDecoded env p := by
  unfold handleDecoded tryAck tryNack
  cases hh : env.handler p with
  | raises => simp
  | returns b =>
      cases b
      · by_cases hn : env.nackRaises <;> simp [hn]
      · by_cases ha : env.ackRaises <;> simp [ha]

/-- C10: a bus message whose payload is empty is not treated as a decode
failure — `json.loads` is never consulted and no negative-ack happens at
the decode step; the handler is invoked first, on the empty object
augmented with the `_service` and `_msg_id` fields, and the remaining
events are exactly those the handler's outcome decides. -/
theorem process_message_empty_payload (maxR : Nat) (svc : String) (msg : BusMsg)
    (env : PipeEnv) (hcap : msg.redeliveryCount < maxR) (hdata : msg.data = []) :
    processMessage maxR svc msg env =
      handleDecoded env [("_service", svc), ("_msg_id", msg.msgId)] ∧
    (processMessage maxR svc msg env).head? =
      some (.handlerCall [("_service", svc), ("_msg_id", msg.msgId)]) ∧
    PipeEvent.decodeAttempt ∉ processMessage maxR svc msg env := by
  have h1 : ¬ maxR ≤ msg.redeliveryCount := by omega
  have hkey : setKey (setKey [] ("_service") svc) ("_msg_id") msg.msgId
      = [("_service", svc), ("_msg_id", msg.msgId)] := by
    simp [setKey]
  have hmain : processMessage maxR svc msg env =
      handleDecoded env [("_service", svc), ("_msg_id", msg.msgId)] := by
    unfold processMessage
    simp [h1, hdata, hkey]
  refine ⟨hmain, ?_, ?_⟩
  · rw [hmain]
    rfl
  · rw [hmain]
    exact decodeAttempt_not_mem_handleDecoded env _

/-- Witness for `process_message_empty_payload`. -/
theorem process_message_empty_payload_witness :
    processMessage 3 ("sms") ⟨"mid-3", [], 0⟩
        ⟨none, fun _ => .returns false, false, false⟩ =
      handleDecoded ⟨none, fun _ => .returns false, false, false⟩
        [("_service", "sms"), ("_msg_id", "mid-3")] ∧
    (processMessage 3 ("sms") ⟨"mid-3", [], 0⟩
        ⟨none, fun _ => .returns false, false, false⟩).head? =
      some (.handlerCall [("_service", "sms"), ("_msg_id", "mid-3")]) ∧
    PipeEvent.decodeAttempt ∉ processMessage 3 ("sms") ⟨"mid-3", [], 0⟩
        ⟨none, fun _ => .returns false, false, false⟩ :=
  process_message_empty_payload 3 ("sms") ⟨"mid-3", [], 0⟩
    ⟨none, fun _ => .returns false, false, false⟩ (by decide) rfl

/-! ## Destination normalization (`SMSMessage.from_dict`, src/service/sms.py) -/

/-- Python `str.strip()` on a `String`. -/
def pyStripStr (s : String) : String := ⟨pyStrip s.data⟩

/-- Python `phone.startswith('+')`: does the first character equal `+`? -/
def startsWithPlus : List Char → Bool
  | c :: _ => c == '+'
  | [] => false

/-- The `phone` normalization of `SMSMessage.from_dict`:
`phone = data.get('phone', '').strip()`, then keep it if it starts with
`+`, otherwise prefix the default country code `+86`. -/
def fromDictPhone (phoneField : Option String) : String :=
  let phone := pyStripStr (phoneField.getD (""))
  if startsWithPlus phone.data then phone else ("+86") ++ phone

/-- C4 (amended): the phone field is first stripped of surrounding
whitespace; for a phone string carrying none (the stripped string is
itself), one starting with `+` passes through unchanged and any other is
prefixed with `+86`. -/
theorem from_dict_phone_spec (s : String) (hs : pyStrip s.data = s.data) :
    (startsWithPlus s.data = true → fromDictPhone (some s) = s) ∧
    (startsWithPlus s.data = false → fromDictPhone (some s) = ("+86") ++ s) := by
  have hstr : pyStripStr s = s := by
    unfold pyStripStr
    rw [hs]
  constructor
  · intro h
    unfold fromDictPhone
    simp only [Option.getD_some, hstr]
    simp [h]
  · intro h
    unfold fromDictPhone
    simp only [Option.getD_some, hstr]
    simp [h]

/-- Witness for `from_dict_phone_spec`: the boundary examples of the
specification. -/
theorem from_dict_phone_spec_witness :
    fromDictPhone (some ("13800138000")) = ("+8613800138000") ∧
    fromDictPhone (some ("+442071838750")) = ("+442071838750") := by
  constructor
  · exact ((from_dict_phone_spec ("13800138000") (by decide)).2 (by decide)).trans
      (by decide)
  · exact (from_dict_phone_spec ("+442071838750") (by decide)).1 (by decide)

/-- C4 as stated is false: `from_dict` strips the field first, so a phone
string that starts with `+` but carries a trailing blank does not pass
through unchanged. -/
theorem from_dict_phone_cex :
    fromDictPhone (some ("+442071838750 ")) = ("+442071838750") ∧
    ("+442071838750 ") ≠ ("+442071838750") := by
  constructor
  · decide
  · decide

/-! ## Modem pool selection (`ModemManager._select_modem_for_sending`) -/

/-- The per-modem record (`ModemInfo` of modem_manager.py) as read by the
selector. -/
structure MgrModemInfo where
  port : String
  signal_strength : Int
  is_available : Bool
  in_use : Bool
  error_count : Nat
  last_used : ℚ
  deriving DecidableEq

/-- `modem_score`: `signal/99` when the signal is positive (else 0), plus
the idle-time bonus capped at one hour, minus `0.1` per accumulated
error. -/
def modemScore (now : ℚ) (m : MgrModemInfo) : ℚ :=
  (if 0 < m.signal_strength then (m.signal_strength : ℚ) / 99 else 0)
    + min ((now - m.last_used) / 3600) 1
    - (m.error_count : ℚ) / 10

/-- Python's `max(available_modems, key=modem_score)`: the first maximal
element in iteration order. -/
def pyMax (f : MgrModemInfo → ℚ) (m : MgrModemInfo) (rest : List MgrModemInfo) :
    MgrModemInfo :=
  rest.foldl (fun best x => if f best < f x then x else best) m

/-- `ModemManager._select_modem_for_sending`: filter to the sessions that
are available and not in use, and among them pick the score maximum;
`none` when the filter is empty. -/
def selectModemForSending (now : ℚ) (modems : List MgrModemInfo) :
    Option MgrModemInfo :=
  match modems.filter (fun m => m.is_available && !m.in_use) with
  | [] => none
  | m :: rest => some (pyMax (modemScore now) m rest)

theorem pyMax_mem (f : MgrModemInfo → ℚ) (m : MgrModemInfo)
    (rest : List MgrModemInfo) : pyMax f m rest ∈ m :: rest := by
  induction rest generalizing m with
  | nil => simp [pyMax]
  | cons x xs ih =>
      unfold pyMax at ih ⊢
      simp only [List.foldl_cons]
      rcases List.mem_cons.mp (ih (if f m < f x then x else m)) with h | h
      · rw [h]
        by_cases hc : f m < f x <;> simp [hc]
      · simp [h]

theorem pyMax_cons (f : MgrModemInfo → ℚ) (m x : MgrModemInfo)
    (xs : List MgrModemInfo) :
    pyMax f m (x :: xs) = pyMax f (if f m < f x then x else m) xs := rfl

theorem pyMax_ge (f : MgrModemInfo → ℚ) (m : MgrModemInfo)
    (rest : List MgrModemInfo) : ∀ y ∈ m :: rest, f y ≤ f (pyMax f m rest) := by
  induction rest generalizing m with
  | nil =>
      intro y hy
      rcases List.mem_cons.mp hy with h | h
      · rw [h]
        exact le_of_eq rfl
      · simp at h
  | cons x xs ih =>
      intro y hy
      rw [pyMax_cons]
      have hstep : f m ≤ f (if f m < f x then x else m) ∧
          f x ≤ f (if f m < f x then x else m) := by
        by_cases hc : f m < f x
        · rw [if_pos hc]
          exact ⟨le_of_lt hc, le_refl _⟩
        · rw [if_neg hc]
          exact ⟨le_refl _, le_of_not_lt hc⟩
      have hself : f (if f m < f x then x else m) ≤
          f (pyMax f (if f m < f x then x else m) xs) :=
        ih _ _ (List.mem_cons_self _ _)
      rcases List.mem_cons.mp hy with h | h
      · rw [h]
        exact le_trans hstep.1 hself
      · rcases List.mem_cons.mp h with h2 | h2
        · rw [h2]
          exact le_trans hstep.2 hself
        · exact ih _ y (List.mem_cons_of_mem _ h2)

/-- C5 (amended): a session is eligible iff it is available and not in use
— the error count never excludes a session, it only subtracts `0.1` each
from the score; among eligible sessions the selected one maximizes the
score `signal/99 + min((now-last_used)/3600, 1) - 0.1*error_count` (with
the signal term zeroed for non-positive signal); when no session is
eligible the pool reports no capacity (`None`). -/
theorem select_modem_spec (now : ℚ) (modems : List MgrModemInfo) :
    (selectModemForSending now modems = none ↔
      ∀ m ∈ modems, ¬(m.is_available = true ∧ m.in_use = false)) ∧
    ∀ m, selectModemForSending now modems = some m →
      m ∈ modems ∧ m.is_available = true ∧ m.in_use = false ∧
      ∀ m2 ∈ modems, m2.is_available = true → m2.in_use = false →
        modemScore now m2 ≤ modemScore now m := by
  have hmemf : ∀ m, m ∈ modems.filter (fun m => m.is_available && !m.in_use) ↔
      m ∈ modems ∧ m.is_available = true ∧ m.in_use = false := by
    intro m
    rw [List.mem_filter]
    simp [Bool.and_eq_true]
  cases hl : modems.filter (fun m => m.is_available && !m.in_use) with
  | nil =>
      constructor
      · constructor
        · intro _ m hm hflags
          have : m ∈ modems.filter (fun m => m.is_available && !m.in_use) :=
            (hmemf m).mpr ⟨hm, hflags.1, hflags.2⟩
          rw [hl] at this
          simp at this
        · intro _
          unfold selectModemForSending
          rw [hl]
      · intro m hm
        unfold selectModemForSending at hm
        rw [hl] at hm
        exact absurd hm (by simp)
  | cons m0 rest =>
      constructor
      · constructor
        · intro h
          unfold selectModemForSending at h
          rw [hl] at h
          exact absurd h (by simp)
        · intro h
          exfalso
          have hm0 : m0 ∈ modems.filter (fun m => m.is_available && !m.in_use) := by
            rw [hl]
            exact List.mem_cons_self _ _
          have := (hmemf m0).mp hm0
          exact h m0 this.1 ⟨this.2.1, this.2.2⟩
      · intro m hm
        unfold selectModemForSending at hm
        rw [hl] at hm
        have hmax : m = pyMax (modemScore now) m0 rest := by
          simpa using hm.symm
        have hmem : m ∈ m0 :: rest := by
          rw [hmax]
          exact pyMax_mem _ _ _
        have hmem2 : m ∈ modems.filter (fun m => m.is_available && !m.in_use) := by
          rw [hl]
          exact hmem
        have hflags := (hmemf m).mp hmem2
        refine ⟨hflags.1, hflags.2.1, hflags.2.2, ?_⟩
        intro m2 hm2 ha hu
        have hm2f : m2 ∈ m0 :: rest := by
          rw [← hl]
          exact (hmemf m2).mpr ⟨hm2, ha, hu⟩
        rw [hmax]
        exact pyMax_ge (modemScore now) m0 rest m2 hm2f

/-- Witness for `select_modem_spec`: a pool holding one free modem selects
it, and its score dominates the (singleton) eligible set. -/
theorem select_modem_spec_witness :
    (⟨("COM2"), 24, true, false, 0, 0⟩ : MgrModemInfo) ∈
        [(⟨("COM2"), 24, true, false, 0, 0⟩ : MgrModemInfo)] ∧
    (⟨("COM2"), 24, true, false, 0, 0⟩ : MgrModemInfo).is_available = true ∧
    (⟨("COM2"), 24, true, false, 0, 0⟩ : MgrModemInfo).in_use = false ∧
    ∀ m2 ∈ [(⟨("COM2"), 24, true, false, 0, 0⟩ : MgrModemInfo)],
      m2.is_available = true → m2.in_use = false →
      modemScore 3600 m2 ≤ modemScore 3600 ⟨("COM2"), 24, true, false, 0, 0⟩ :=
  (select_modem_spec 3600 [⟨("COM2"), 24, true, false, 0, 0⟩]).2
    ⟨("COM2"), 24, true, false, 0, 0⟩ rfl

/-- C5 as stated is false: a session whose error count has reached the
threshold 3 is still selected — eligibility in the code checks only
`is_available` and `in_use`, never the error count. -/
theorem select_modem_cex :
    selectModemForSending 3600 [⟨("COM1"), 20, true, false, 3, 0⟩] =
      some ⟨("COM1"), 20, true, false, 3, 0⟩ ∧
    3 ≤ (⟨("COM1"), 20, true, false, 3, 0⟩ : MgrModemInfo).error_count := by
  constructor
  · rfl
  · decide

/-! ## Long-message send loop (`send_long_sms`, `send_sms`) -/

/-- The fields of `SMSResult` that the long-send loop determines. -/
structure SegSendResult where
  success : Bool
  segment_number : Nat
  total_segments : Nat
  deriving DecidableEq, Repr

/-- `SMSSender.send_long_sms`, with the serial outcome of each segment's
`_send_pdu_sms` supplied by `outcome`: the loop walks *every* encoded
segment in order — there is no early exit on failure — and appends one
result per segment. -/
def sendLongSms (content : List Nat) (ref : Nat) (outcome : Nat → Bool) :
    List SegSendResult :=
  if content.length ≤ 70 then [⟨outcome 0, 1, 1⟩]
  else
    (List.range (encodeLongSmsUcs2 content ref).length).map
      fun i => ⟨outcome i, i + 1, (encodeLongSmsUcs2 content ref).length⟩

/-- `SMSSender.send_sms`: short bodies are sent directly; long bodies run
`send_long_sms` and only the *first* segment's result is returned
(`results[0]`, kept "for backward compatibility" by the source). -/
def sendSmsResult (content : List Nat) (ref : Nat) (outcome : Nat → Bool) :
    SegSendResult :=
  if content.length ≤ 70 then ⟨outcome 0, 1, 1⟩
  else
    match sendLongSms content ref outcome with
    | [] => ⟨false, 1, 1⟩
    | r :: _ => r

/-- C6 (amended): when a segment of a multi-segment send fails the session
does *not* cease — every one of the `⌈N/67⌉` segments is attempted and
recorded, so the per-segment result list (from which `succeeded < total`
is computable) reflects each failure, while the value `send_sms` returns
is just the first segment's result. -/
theorem send_long_sms_spec (content : List Nat) (ref : Nat) (outcome : Nat → Bool)
    (h : 70 < content.length) :
    (sendLongSms content ref outcome).length = numSegments content ∧
    ((sendLongSms content ref outcome).map fun r => r.success) =
      (List.range (numSegments content)).map outcome ∧
    ∀ r rest, sendLongSms content ref outcome = r :: rest →
      sendSmsResult content ref outcome = r := by
  have hif : ¬ content.length ≤ 70 := by omega
  have hlen : (encodeLongSmsUcs2 content ref).length = numSegments content := by
    simp [encodeLongSmsUcs2]
  refine ⟨?_, ?_, ?_⟩
  · simp [sendLongSms, hif, hlen]
  · simp [sendLongSms, hif, hlen, List.map_map, Function.comp]
  · intro r rest heq
    unfold sendSmsResult
    rw [if_neg hif, heq]

/-- Witness for `send_long_sms_spec`: a 71-code-point body is sent as two
segments whose result list mirrors the per-segment outcomes. -/
theorem send_long_sms_spec_witness :
    (sendLongSms (List.replicate 71 65) 42 (fun i => decide (i = 0))).length =
      numSegments (List.replicate 71 65) ∧
    ((sendLongSms (List.replicate 71 65) 42 (fun i => decide (i = 0))).map
        fun r => r.success) =
      (List.range (numSegments (List.replicate 71 65))).map (fun i => decide (i = 0)) ∧
    ∀ r rest,
      sendLongSms (List.replicate 71 65) 42 (fun i => decide (i = 0)) = r :: rest →
      sendSmsResult (List.replicate 71 65) 42 (fun i => decide (i = 0)) = r :=
  send_long_sms_spec (List.replicate 71 65) 42 (fun i => decide (i = 0)) (by decide)

/-- C6 as stated is false: with a 71-code-point body whose first segment
fails, both segments are still attempted (two results, no ceasing); and
when only the second segment fails, `send_sms` reports the first segment's
success although `succeeded < total`. -/
theorem send_long_sms_cex :
    (sendLongSms (List.replicate 71 65) 42 (fun i => decide (i ≠ 0))).length = 2 ∧
    decide ((0 : Nat) ≠ 0) = false ∧
    (sendSmsResult (List.replicate 71 65) 42 (fun i => decide (i = 0))).success =
      true ∧
    decide ((1 : Nat) = 0) = false := by
  refine ⟨?_, rfl, ?_, rfl⟩
  · rfl
  · rfl

/-! ## Error-counter updates after a send -/

/-- How `gsmmodem.sendSms` ends inside `ManagedModem.send_sms`
(src/src/common/modem_manager.py): normal return, `CommandError`,
`TimeoutException`, or any other exception. -/
inductive GsmSendOutcome where
  | ok
  | commandError
  | timeoutError
  | otherError

/-- The mutable fields of `self.info` that `ManagedModem.send_sms`
touches. -/
structure ManagedState where
  is_available : Bool
  in_use : Bool
  last_used : ℚ
  error_count : Nat
  deriving DecidableEq

/-- `ManagedModem.send_sms`: `in_use` and `last_used` are set on entry and
`in_use` cleared in the `finally`; a successful `sendSms` re-asserts
availability and sets `error_count = 0`; every failure increments the
counter. -/
def managedSendSms (st : ManagedState) (now : ℚ) (outcome : GsmSendOutcome) :
    Bool × ManagedState :=
  match outcome with
  | .ok =>
      (true, { st with last_used := now, is_available := true,
                       error_count := 0, in_use := false })
  | .commandError =>
      (false, { st with last_used := now,
                        error_count := st.error_count + 1, in_use := false })
  | .timeoutError =>
      (false, { st with last_used := now,
                        error_count := st.error_count + 1, in_use := false })
  | .otherError =>
      (false, { st with last_used := now,
                        error_count := st.error_count + 1, in_use := false })

/-- The per-port record of `ConfigLoader.port_files` as touched by
`ModemWrapper.send_sms_sync` (src/common/config.py): status flag
(`healthy`), the error counter, the last-used stamp and whether the
`modem` object exists. -/
structure PortInfo where
  healthy : Bool
  error_count : Nat
  last_used : ℚ
  hasModem : Bool
  deriving DecidableEq

/-- How the `modem.sendSms(...)` call of `send_sms_sync` ends. -/
inductive SyncSendOutcome where
  | ok
  | raises

/-- `ModemWrapper.send_sms_sync`: the guard branches (unhealthy status,
5 or more errors, missing modem object) raise into the same `except`
clause, which increments the counter and flips the status to unhealthy at
three errors; on a successful send the counter becomes
`max(0, error_count - 1)` — a decrement, not a reset; the `finally`
stamps `last_used`. -/
def sendSmsSync (info : PortInfo) (endTime : ℚ) (outcome : SyncSendOutcome) :
    Bool × PortInfo :=
  if info.healthy = false ∨ 5 ≤ info.error_count ∨ info.hasModem = false then
    (false, { info with error_count := info.error_count + 1,
                        healthy := decide (info.error_count + 1 < 3),
                        last_used := endTime })
  else
    match outcome with
    | .ok =>
        (true, { info with error_count := info.error_count - 1,
                           last_used := endTime })
    | .raises =>
        (false, { info with error_count := info.error_count + 1,
                            healthy := decide (info.error_count + 1 < 3),
                            last_used := endTime })

/-- C7 (amended): after a successful send, `ManagedModem.send_sms` resets
the session's error counter to 0 for every prior value, but
`ModemWrapper.send_sms_sync` (the wrapper used by the consumer pipeline)
only decrements it by one, clamped at zero — so there the counter reaches
0 only from prior values of at most 1. -/
theorem error_counter_after_success (st : ManagedState) (now : ℚ)
    (info : PortInfo) (t : ℚ) (h1 : info.healthy = true)
    (h2 : info.error_count < 5) (h3 : info.hasModem = true) :
    (managedSendSms st now .ok).1 = true ∧
    (managedSendSms st now .ok).2.error_count = 0 ∧
    (sendSmsSync info t .ok).1 = true ∧
    (sendSmsSync info t .ok).2.error_count = info.error_count - 1 := by
  have hcond : ¬(info.healthy = false ∨ 5 ≤ info.error_count ∨
      info.hasModem = false) := by
    push_neg
    refine ⟨?_, by omega, ?_⟩
    · simp [h1]
    · simp [h3]
  refine ⟨rfl, rfl, ?_, ?_⟩
  · simp [sendSmsSync, hcond]
  · simp [sendSmsSync, hcond]

/-- Witness for `error_counter_after_success`. -/
theorem error_counter_after_success_witness :
    (managedSendSms ⟨true, true, 0, 4⟩ 7 .ok).1 = true ∧
    (managedSendSms ⟨true, true, 0, 4⟩ 7 .ok).2.error_count = 0 ∧
    (sendSmsSync ⟨true, 4, 0, true⟩ 7 .ok).1 = true ∧
    (sendSmsSync ⟨true, 4, 0, true⟩ 7 .ok).2.error_count = 4 - 1 :=
  error_counter_after_success ⟨true, true, 0, 4⟩ 7 ⟨true, 4, 0, true⟩ 7
    rfl (by decide) rfl

/-- C7 as stated is false: a successful `send_sms_sync` on a session with
two accumulated errors leaves the counter at 1, not 0. -/
theorem error_counter_reset_cex :
    (sendSmsSync ⟨true, 2, 0, true⟩ 1 .ok).1 = true ∧
    (sendSmsSync ⟨true, 2, 0, true⟩ 1 .ok).2.error_count = 1 := by
  constructor
  · rfl
  · rfl

/-! ## AT dialogue of a send (`_send_encoded_sms`, `_send_pdu_sms`) -/

/-- The AT commands a send can write to the serial port. -/
inductive ATCommand where
  | atPing
  | ate0
  | cmgf1
  | cmgf0
  | cscsUcs2
  | cmgsText (phoneUcs2 : List Nat)
  | cmgsPdu (dataLength : Nat)
  deriving DecidableEq, Repr

/-- The serial responses one `_send_encoded_sms` call observes. -/
structure TextModeEnv where
  promptSeen : Bool
  finalResponse : List Char

/-- `_send_encoded_sms`: with no open serial port it fails before writing
anything; otherwise it unconditionally issues `AT`, `ATE0`, `AT+CMGF=1`,
`AT+CSCS="UCS2"` and `AT+CMGS="<phone_ucs2>"`; without the `>` prompt it
fails there, else the payload is written and `_wait_for_response`'s text is
classified by `_parse_response`. -/
def sendEncodedSms (connected : Bool) (phoneUcs2 : List Nat) (env : TextModeEnv) :
    List ATCommand × Bool :=
  if connected = false then ([], false)
  else
    let cmds := [ATCommand.atPing, .ate0, .cmgf1, .cscsUcs2, .cmgsText phoneUcs2]
    if env.promptSeen = false then (cmds, false)
    else (cmds, (parseResponse env.finalResponse).success)

/-- The serial responses one `_send_pdu_sms` call observes. -/
structure PduModeEnv where
  cmgf0Resp : List Char
  promptSeen : Bool
  finalResponse : List Char

/-- `_send_pdu_sms` for one long-message segment: `AT`, `ATE0`, then
`AT+CMGF=0` which must answer `OK`, then `AT+CMGS=<data_length>`, the
prompt, the PDU bytes, and the final classification. -/
def sendPduSms (connected : Bool) (dataLength : Nat) (env : PduModeEnv) :
    List ATCommand × Bool :=
  if connected = false then ([], false)
  else if containsSub okPat env.cmgf0Resp = false then
    ([.atPing, .ate0, .cmgf0], false)
  else
    let cmds := [ATCommand.atPing, .ate0, .cmgf0, .cmgsPdu dataLength]
    if env.promptSeen = false then (cmds, false)
    else (cmds, (parseResponse env.finalResponse).success)

/-- The full AT-command trace of `SMSSender.send_sms`: a body of at most 70
code points — the empty body included — goes through `_send_encoded_sms`;
a longer body runs `_send_pdu_sms` once per encoded segment. -/
def sendSmsCommands (connected : Bool) (phone content : List Nat) (ref : Nat)
    (envShort : TextModeEnv) (envLong : Nat → PduModeEnv) : List ATCommand :=
  if content.length ≤ 70 then
    (sendEncodedSms connected (to_ucs2_bytes phone) envShort).1
  else
    ((List.range (encodeLongSmsUcs2 content ref).length).map fun i =>
      (sendPduSms connected
        (((encodeLongSmsUcs2 content ref).map Prod.fst).getD i 0) (envLong i)).1).flatten

/-- C8 (amended): an empty body is *not* rejected — no `EncodingRejected`
guard exists anywhere on the path.  `send_sms` treats it as an ordinary
short body (`len('') = 0 ≤ 70`) and, whenever the serial port is open, the
AT dialogue is entered: the five text-mode commands are written whatever
the serial environment answers. -/
theorem empty_body_enters_dialogue (phone : List Nat) (ref : Nat)
    (envShort : TextModeEnv) (envLong : Nat → PduModeEnv) :
    sendSmsCommands true phone [] ref envShort envLong =
      [.atPing, .ate0, .cmgf1, .cscsUcs2, .cmgsText (to_ucs2_bytes phone)] := by
  unfold sendSmsCommands sendEncodedSms
  by_cases hp : envShort.promptSeen = false <;> simp [hp]

/-- C8 as stated is false: a concrete empty-body request on a connected
modem writes five AT commands (the dialogue begins before any rejection
could happen), and with the modem answering `OK` the send is even
reported successful. -/
theorem empty_body_cex :
    (sendSmsCommands true [49, 50] [] 42 ⟨true, ("OK").toList⟩
        (fun _ => ⟨[], false, []⟩)).length = 5 ∧
    (sendEncodedSms true (to_ucs2_bytes [49, 50]) ⟨true, ("OK").toList⟩).2 =
      true := by
  constructor
  · rfl
  · decide

end SimplePhn
